import Mathlib

/-!
Shallow embedding of `update-btc.py`, a secure updater for the `bitcoind`
and `lnd` daemons.  Pure logic (version-tag normalization, checksum-manifest
parsing, hash comparison) is translated directly; effectful code
(`saveRemoteFile`, `verifyChecksum`, `getValidatedArchive`, `makeLink`,
`installTar`, the link-switch decisions in `updateBtc`/`updateLnd`) is
translated into explicit state passing, with the outcomes of external
collaborators (the network, gpg, the SHA-256 hash of a byte list) supplied
as inputs, and with Python exceptions and `sys.exit` made explicit in an
`Except` result.
-/

namespace UpdateBtc

/-- Python exceptions relevant to this program's control flow. -/
inductive PyExc where
  | osError         -- `OSError` (includes `FileNotFoundError`)
  | extractError    -- `tarfile.ExtractError`
  | readError       -- `tarfile.ReadError` (archive is not a valid tar)
  | attributeError  -- `AttributeError` (e.g. calling `.lower()` on `None`)
  deriving DecidableEq, Repr

/-- How a run can stop abnormally: `sys.exit` (raised by `log(_, False)` or
directly) or an uncaught Python exception. -/
inductive Halt where
  | exited
  | raised (e : PyExc)
  deriving DecidableEq, Repr

/-- The remote side of one URL as seen by `saveRemoteFile`:
`headSize` is the `Content-Length` answered to the `HEAD` probe
(`none` when the probe fails, which `getRemoteFileSize` reports as `-1`),
`getOk` tells whether the `GET` succeeds, and `content` is the full body
the server would send to an un-ranged `GET` (a ranged `GET` from offset
`k` sends `content.drop k`). -/
structure Net where
  headSize : Option Nat
  getOk : Bool
  content : List Nat
  deriving DecidableEq, Repr

/-- The HTTP request that `saveRemoteFile` ends up issuing for the body. -/
inductive Req where
  | rangeFrom (k : Nat)
  | full
  deriving DecidableEq, Repr

/-- Embedding of `saveRemoteFile(url, localPath, resume)`.  The local file is
`Option (List Nat)` (`none` when `os.path.isfile` is false).  Returns the new
local file content together with the body requests issued, or `Halt.exited`
when the download fails (`log('', False)` calls `sys.exit`).  Note the output
file is opened with mode `'ab'` whenever `resume` is set and `'wb'` otherwise,
so in resume mode every downloaded body is appended to the existing content. -/
def saveRemoteFile (net : Net) (file : Option (List Nat)) (resume : Bool) :
    Except Halt (Option (List Nat) × List Req) :=
  match resume, file with
  | true, some data =>
    let currentSize : Int := data.length
    let remoteFileSize : Int := match net.headSize with | some n => (n : Int) | none => -1
    if currentSize < remoteFileSize then
      -- Range request from `currentSize`, body appended ('ab')
      if net.getOk then
        Except.ok (some (data ++ net.content.drop data.length), [Req.rangeFrom data.length])
      else Except.error Halt.exited
    else if currentSize = remoteFileSize then
      -- sizes already equal: log success and return without any body request
      Except.ok (some data, [])
    else
      -- local larger than remote, or HEAD failed (-1): un-ranged GET,
      -- but the file is still opened 'ab', so the body is appended
      if net.getOk then
        Except.ok (some (data ++ net.content), [Req.full])
      else Except.error Halt.exited
  | _, _ =>
    -- no resume, or no local file: un-ranged GET; 'wb' truncates, and 'ab'
    -- on a missing file creates it, so the result is the body either way
    if net.getOk then
      Except.ok (some net.content, [Req.full])
    else Except.error Halt.exited

/-- Python's `str.lower()` restricted to the ASCII strings this program
compares (hex digests). -/
def pyLower (s : String) : String := String.mk (s.data.map Char.toLower)

/-- Embedding of `checkSha256(filePath, sha256sum)`.  The SHA-256 computation
itself is abstracted as `hash`, mapping a file's bytes to its hex digest;
`file` is `none` when opening the file raises `OSError` (caught, giving
`False`).  `sha256sum` is `Option String` because `getValidatedArchive` passes
`getExpectedChecksum`'s result straight through: on `None` the expression
`sha256sum.lower()` raises an uncaught `AttributeError` — but only after the
file was opened successfully, since `open` runs first. -/
def checkSha256 (hash : List Nat → String) (file : Option (List Nat))
    (sha256sum : Option String) : Except Halt Bool :=
  match file with
  | none => Except.ok false
  | some data =>
    match sha256sum with
    | none => Except.error (Halt.raised PyExc.attributeError)
    | some s => Except.ok (pyLower (hash data) == pyLower s)

/-- Result of `verifyChecksum`: the boolean it returns, the final state of the
local archive file, and the `resume` arguments of the `saveRemoteFile` calls
it made. -/
structure VcResult where
  ok : Bool
  file : Option (List Nat)
  fetches : List Bool
  deriving DecidableEq, Repr

/-- Embedding of `verifyChecksum(checksum, filePath, url)`: check the cached
file; on mismatch call `saveRemoteFile(url, filePath, True)` — note the
literal `True`, i.e. a resumed download — and check exactly once more. -/
def verifyChecksum (hash : List Nat → String) (net : Net)
    (checksum : Option String) (file : Option (List Nat)) :
    Except Halt VcResult :=
  match checkSha256 hash file checksum with
  | Except.error h => Except.error h
  | Except.ok true => Except.ok ⟨true, file, []⟩
  | Except.ok false =>
    match saveRemoteFile net file true with
    | Except.error h => Except.error h
    | Except.ok (f2, _) =>
      match checkSha256 hash f2 checksum with
      | Except.error h => Except.error h
      | Except.ok b => Except.ok ⟨b, f2, [true]⟩

/-- First marker searched by `getExpectedChecksum` (via `lines.index`). -/
def BEGIN_MARKER : String := "-----BEGIN PGP SIGNED MESSAGE-----"

/-- Second marker searched by `getExpectedChecksum` (via `lines.index`). -/
def SIG_MARKER : String := "-----BEGIN PGP SIGNATURE-----"

/-- Python's `list.index` returning the index of the first occurrence
(`none` models the `ValueError` it raises when the element is absent). -/
def pyIndex (x : String) : List String → Option Nat
  | [] => none
  | y :: ys => if y == x then some 0 else (pyIndex x ys).map (· + 1)

/-- The lines `getExpectedChecksum` actually scans: when both clearsign
markers are found, the slice `lines[begin+1:end]` strictly between their
first occurrences; when either `lines.index` raises `ValueError`, the `pass`
leaves the full list in place. -/
def consideredLines (lines : List String) : List String :=
  match pyIndex BEGIN_MARKER lines, pyIndex SIG_MARKER lines with
  | some b, some e => (lines.drop (b + 1)).take (e - (b + 1))
  | _, _ => lines

/-- A character accepted by the `[0-9a-fA-F]` class. -/
def isHexChar (c : Char) : Bool :=
  c.isDigit || ('a' ≤ c && c ≤ 'f') || ('A' ≤ c && c ≤ 'F')

/-- The regex `^([0-9a-fA-F]{64})[ ]+<fileName>$` applied to one line
(`fileName` is `re.escape`d in the source, hence literal): the line must be
64 hex characters, then at least one space, then exactly `fileName`; the
returned value is group 1, the hex digest. -/
def matchLine (fileName : String) (line : String) : Option String :=
  let cs := line.data
  let h := cs.take 64
  if h.length = 64 && h.all isHexChar then
    let rest := cs.drop 64
    if (List.range rest.length).any
        (fun i => (rest.take (i + 1)).all (· == ' ') && rest.drop (i + 1) == fileName.data) then
      some (String.mk h)
    else none
  else none

/-- The list-comprehension `hashes` of `getExpectedChecksum`: group 1 of every
considered line matching the pattern for `fileName`. -/
def lineHashes (lines : List String) (fileName : String) : List String :=
  (consideredLines lines).filterMap (matchLine fileName)

/-- Embedding of `getExpectedChecksum(checksumFilePath, fileName)` on the
lines of the manifest file: the common digest when at least one line matches
and all matching lines agree, `None` otherwise. -/
def getExpectedChecksum (lines : List String) (fileName : String) : Option String :=
  match lineHashes lines fileName with
  | [] => none
  | h :: t => if t.all (fun x => x == h) then some h else none

/-- What the filesystem holds at the `dest` path of `makeLink`:
nothing, a symlink with a target, or some other entry (regular file or
directory; `lexists` true, `islink` false). -/
inductive Entry where
  | nofile
  | link (target : String)
  | other
  deriving DecidableEq, Repr

/-- A filesystem mutation performed by `makeLink`. -/
inductive FsOp where
  | remove
  | symlink (target : String)
  deriving DecidableEq, Repr

/-- Embedding of `makeLink(src, dest)` (parametric in `os.path.normpath`,
written `normPath`): if `dest` is already a link to `normpath(src)` do
nothing; otherwise `os.remove` whatever `lexists` at `dest` and then
`os.symlink` the new target — two separate filesystem operations. Returns
the final state of `dest` and the operations performed, in order. -/
def makeLink (normPath : String → String) (src : String) (dest : Entry) :
    Entry × List FsOp :=
  let s := normPath src
  match dest with
  | Entry.link t =>
    if t = s then (dest, [])
    else (Entry.link s, [FsOp.remove, FsOp.symlink s])
  | Entry.nofile => (Entry.link s, [FsOp.symlink s])
  | Entry.other => (Entry.link s, [FsOp.remove, FsOp.symlink s])

/-- Effect of one `makeLink` filesystem operation on the `dest` entry. -/
def applyFsOp (st : Entry) : FsOp → Entry
  | FsOp.remove => Entry.nofile
  | FsOp.symlink s => Entry.link s

/-- All states the `dest` path passes through while a list of operations
runs: the initial state and the state after each operation. -/
def statesDuring (st : Entry) : List FsOp → List Entry
  | [] => [st]
  | op :: ops => st :: statesDuring (applyFsOp st op) ops

/-- Whether a link is present at the `dest` path. -/
def hasLink : Entry → Bool
  | Entry.link _ => true
  | _ => false

/-- One member of a tar archive as `installTar` sees it: its stored path and
whether `tar.extract` on it raises (with `errorlevel=2`, fatal errors are
`OSError` and non-fatal ones `tarfile.ExtractError`; a truncated archive can
also surface `tarfile.ReadError` here). -/
structure TarMember where
  name : String
  extractErr : Option PyExc
  deriving DecidableEq, Repr

/-- `os.path.dirname(name) != ''` for the relative member paths of a tar
archive: true exactly when the name contains a separator. -/
def hasDirPart (name : String) : Bool := name.data.contains '/'

/-- The member loop of `installTar`: members whose `dirname` is empty are
skipped; the rest are extracted (after stripping the first path component),
and the first extraction error propagates out of the loop. -/
def extractAll : List TarMember → Except PyExc Bool
  | [] => Except.ok true
  | m :: ms =>
    if hasDirPart m.name then
      match m.extractErr with
      | some e => Except.error e
      | none => extractAll ms
    else extractAll ms

/-- The `try` body of `installTar`: directory preparation
(`shutil.rmtree`/`os.remove`/`os.makedirs`, any of which can raise
`OSError`), then `tarfile.open` (which raises `tarfile.ReadError` when the
file is not a valid tar archive, or `OSError`), then the member loop. -/
def installTarBody (openResult : Except PyExc (List TarMember))
    (dirPrepErr : Option PyExc) : Except PyExc Bool :=
  match dirPrepErr with
  | some e => Except.error e
  | none =>
    match openResult with
    | Except.error e => Except.error e
    | Except.ok members => extractAll members

/-- Embedding of `installTar(tarPath, instDir)`: the body runs under
`except (OSError, tarfile.ExtractError): return False` — exactly those two
exception classes are turned into `False`; any other exception (such as
`tarfile.ReadError`) propagates. -/
def installTar (openResult : Except PyExc (List TarMember))
    (dirPrepErr : Option PyExc) : Except PyExc Bool :=
  match installTarBody openResult dirPrepErr with
  | Except.error e =>
    if e = PyExc.osError ∨ e = PyExc.extractError then Except.ok false
    else Except.error e
  | Except.ok b => Except.ok b

/-- A character accepted by the `[0-9\.]` class of the lnd tag regex. -/
def isVerChar (c : Char) : Bool := c.isDigit || c == '.'

/-- Embedding of `lndTagToVersion(tag)` on the tag's characters:
`re.match(r'v([0-9\.]*)-(.*)', tag)` requires a leading `'v'`, takes the
maximal run of digits and dots as group 1, requires the next character to be
`'-'`, and takes the rest of the line (`.` does not match a newline) as
group 2; on no match the source calls `sys.exit`, modelled as `none`.
Otherwise the result is group 1, then `'-'` if group 1 holds more than one
dot else `'.0-'`, then group 2. -/
def lndTagToVersionChars (tag : List Char) : Option (List Char) :=
  match tag with
  | 'v' :: rest =>
    let ver := rest.takeWhile isVerChar
    match rest.dropWhile isVerChar with
    | '-' :: rest2 =>
      let commit := rest2.takeWhile (· ≠ '\n')
      some (ver ++ (if ver.count '.' > 1 then ['-'] else ['.', '0', '-']) ++ commit)
    | _ => none
  | _ => none

/-- `lndTagToVersion` on strings. -/
def lndTagToVersion (tag : String) : Option String :=
  (lndTagToVersionChars tag.data).map String.mk

/-- What a daemon update does to the "current" link after extraction. -/
inductive SwitchOutcome where
  | switched     -- `os.sync()` then `makeLink(dirName, installLink)`
  | keptLink     -- no switch, no error
  | abortedRun   -- `sys.exit` with the wrong-version message
  deriving DecidableEq, Repr

/-- The link-switch decision of `updateBtc`: the chained comparison
`latestVer == getInstalledBtcDaemonVersion(instDir) ==
getInstalledBtcClientVersion(instDir)` — both binaries freshly extracted
into `instDir` must self-report `latestVer` — gates the switch, and its
failure is `sys.exit("##### Downloaded binaries don't have the expected
version.")`.  `daemonVer`/`clientVer` are the self-reported versions
(`none` when the binary is absent). -/
def updateBtcSwitchDecision (latestVer : String)
    (daemonVer clientVer : Option String) : SwitchOutcome :=
  if some latestVer = daemonVer ∧ daemonVer = clientVer then SwitchOutcome.switched
  else SwitchOutcome.abortedRun

/-- The link-switch decision of `updateLnd`: the source tests
`latestVer != getInstalledLndDaemonVersion(installLink)` — the version
reported through the OLD "current" link, not the freshly extracted
`instDir` — and switches when they differ, with no abort branch.
`extractedVer`, the version the freshly extracted binaries in `instDir`
would self-report, is never consulted. -/
def updateLndSwitchDecision (latestVer : String)
    (linkVer : Option String) (extractedVer : Option String) : SwitchOutcome :=
  if some latestVer ≠ linkVer then SwitchOutcome.switched
  else SwitchOutcome.keptLink

/-- The local cache directory for downloads (`TARS_PATH`; the home-directory
prefix is abstracted away). -/
def TARS_PATH : String := "tars/"

/-- Outcomes of the gpg interactions of `getValidatedArchive`, supplied as
inputs since gpg is an external collaborator: `verify1`/`verify2` are the two
`verifyGPG` attempts, `keyOk` is whether `retrievePublicKey` ends with the
key present (its final `log('', haveKey(keyId))` calls `sys.exit` when not),
`sigGetOk`/`manGetOk` are the signature/manifest downloads, `sigSeparate`
is `postfix == '.sig'` (the manifest extension is not `.asc`), and
`manifestNet` is the manifest content the release root serves. -/
structure GpgEnv where
  verify1 : Bool
  verify2 : Bool
  keyOk : Bool
  sigGetOk : Bool
  manGetOk : Bool
  sigSeparate : Bool
  manifestNet : List String
  deriving DecidableEq, Repr

/-- The tail of `getValidatedArchive` once a signature verification has
succeeded: read the manifest (whose absence makes `open` raise an `OSError`
that `getExpectedChecksum` does not catch — it only catches `IndexError`),
extract the expected digest, and hand it — `None` included — to
`verifyChecksum`. -/
def validateAgainstManifest (hash : List Nat → String) (net : Net)
    (manifest : Option (List String)) (fileName : String)
    (archiveFile : Option (List Nat)) : Except Halt (Option String) :=
  match manifest with
  | none => Except.error (Halt.raised PyExc.osError)
  | some lines =>
    let checksum := getExpectedChecksum lines fileName
    match verifyChecksum hash net checksum archiveFile with
    | Except.error h => Except.error h
    | Except.ok r =>
      Except.ok (if r.ok then some (TARS_PATH ++ fileName) else none)

/-- Embedding of `getValidatedArchive(version, arch, data)` from the first
`verifyGPG` on: on failure it retrieves the key (exiting if that fails),
re-downloads signature and manifest with `resume=False` (each download
exiting on network failure), and retries `verifyGPG` exactly once, returning
`None` if it still fails; with a verified signature it extracts the expected
digest for the archive filename and validates the cached archive. -/
def getValidatedArchive (hash : List Nat → String) (g : GpgEnv) (net : Net)
    (manifest0 : Option (List String)) (fileName : String)
    (archiveFile : Option (List Nat)) : Except Halt (Option String) :=
  if g.verify1 then
    validateAgainstManifest hash net manifest0 fileName archiveFile
  else if ¬ g.keyOk then Except.error Halt.exited
  else if ¬ g.sigGetOk then Except.error Halt.exited
  else if g.sigSeparate ∧ ¬ g.manGetOk then Except.error Halt.exited
  else if g.verify2 then
    -- whether or not the signature is a separate `.sig` file, the manifest
    -- itself has been re-downloaded at this point
    validateAgainstManifest hash net (some g.manifestNet) fileName archiveFile
  else Except.ok none

/-- Value of one hex digit, accepting both letter cases, as in the manifest
pattern's `[0-9a-fA-F]`. -/
def hexDigitVal? : Char → Option Nat
  | '0' => Option.some 0
  | '1' => Option.some 1
  | '2' => Option.some 2
  | '3' => Option.some 3
  | '4' => Option.some 4
  | '5' => Option.some 5
  | '6' => Option.some 6
  | '7' => Option.some 7
  | '8' => Option.some 8
  | '9' => Option.some 9
  | 'a' => Option.some 10
  | 'b' => Option.some 11
  | 'c' => Option.some 12
  | 'd' => Option.some 13
  | 'e' => Option.some 14
  | 'f' => Option.some 15
  | 'A' => Option.some 10
  | 'B' => Option.some 11
  | 'C' => Option.some 12
  | 'D' => Option.some 13
  | 'E' => Option.some 14
  | 'F' => Option.some 15
  | _ => Option.none

/-- The lowercase hex character for a digit value. -/
def hexLowerChar : Nat → Char
  | 0 => '0' | 1 => '1' | 2 => '2' | 3 => '3' | 4 => '4'
  | 5 => '5' | 6 => '6' | 7 => '7' | 8 => '8' | 9 => '9'
  | 10 => 'a' | 11 => 'b' | 12 => 'c' | 13 => 'd' | 14 => 'e' | 15 => 'f'
  | _ => '*'

/-- Digit values of a hex string, `none` if any character is not hex. -/
def hexDigits? : List Char → Option (List Nat)
  | [] => some []
  | c :: cs =>
    match hexDigitVal? c, hexDigits? cs with
    | some d, some ds => some (d :: ds)
    | _, _ => none

/-- Value of a big-endian digit string in base 16. -/
def hexNum : List Nat → Nat
  | [] => 0
  | d :: ds => d * 16 ^ ds.length + hexNum ds

/-- A hex string read as a hexadecimal number. -/
def hexVal? (s : String) : Option Nat := (hexDigits? s.data).map hexNum

/-- A 64-character lowercase hex digest used as concrete test data. -/
def hexA : String := "aaaaaaaaaaaaaaaaaaaaaaaaaaaaaaaaaaaaaaaaaaaaaaaaaaaaaaaaaaaaaaaa"

/-- A second, different 64-character hex digest. -/
def hexB : String := "bbbbbbbbbbbbbbbbbbbbbbbbbbbbbbbbbbbbbbbbbbbbbbbbbbbbbbbbbbbbbbbb"

/-- A manifest whose two lines name the same file with differing digests. -/
def dupLines : List String := [hexA ++ "  f.tar", hexB ++ "  f.tar"]

/-- A gpg environment in which the first signature verification succeeds. -/
def gpgOkEnv : GpgEnv := ⟨true, true, true, true, true, true, []⟩

/-- A concrete SHA-256 oracle for tests: `[1, 2]` hashes to `"aa"`,
everything else to `"bb"`. -/
def c4hash : List Nat → String := fun l => if l = [1, 2] then "aa" else "bb"

/-- A remote file of content `[1, 2]` whose `HEAD` probe answers 2. -/
def c4net : Net := ⟨some 2, true, [1, 2]⟩

end UpdateBtc

namespace UpdateBtc

/-- Claim C1 (code bug): `updateLnd` switches the "current" link without any
post-extraction version check — its condition re-reads the version through
the OLD `installLink` and switches whenever that differs from `latestVer`,
never consulting the freshly extracted `instDir` binaries and never calling
`sys.exit`; so with old version `0.17.3-beta`, latest `0.17.4-beta` and
extracted binaries self-reporting the bogus `0.0.1-bogus` the link is still
switched.  The parallel `updateBtc` code gates the switch on the freshly
extracted binaries and aborts the run on mismatch, which is what the claim
(and the spec) describe. -/
theorem c1_lnd_switch_ignores_extracted_version :
    updateLndSwitchDecision "0.17.4-beta" (some "0.17.3-beta") (some "0.0.1-bogus")
      = SwitchOutcome.switched
  ∧ (∀ latest linkVer e1 e2, updateLndSwitchDecision latest linkVer e1
      = updateLndSwitchDecision latest linkVer e2)
  ∧ updateBtcSwitchDecision "27.0" (some "26.0") (some "26.0")
      = SwitchOutcome.abortedRun
  ∧ updateBtcSwitchDecision "27.0" (some "27.0") (some "27.0")
      = SwitchOutcome.switched :=
  ⟨rfl, fun _ _ _ _ => rfl, rfl, rfl⟩

/-- Claim C2 is false on the code: repointing an existing "current" link is
performed as `os.remove` followed by `os.symlink` — two operations, not one
atomic rename-style replace — and after the remove the path passes through a
state with no link at all. -/
theorem c2_not_atomic_counterexample :
    (makeLink id "a" (Entry.link "b")).2 = [FsOp.remove, FsOp.symlink "a"]
  ∧ (statesDuring (Entry.link "b") (makeLink id "a" (Entry.link "b")).2).all hasLink
      = false :=
  ⟨rfl, rfl⟩

/-- Claim C2 (amended): for every call that repoints the "current" link to a
new target while the link already exists, the switch is performed as a
remove followed by a create (`os.remove`, then `os.symlink`), so the path
passes through an intermediate state with no link before the new link
appears. -/
theorem c2_remove_then_create (normPath : String → String) (src t : String)
    (h : t ≠ normPath src) :
    (makeLink normPath src (Entry.link t)).2
        = [FsOp.remove, FsOp.symlink (normPath src)]
  ∧ statesDuring (Entry.link t) (makeLink normPath src (Entry.link t)).2
        = [Entry.link t, Entry.nofile, Entry.link (normPath src)] := by
  simp [makeLink, h, statesDuring, applyFsOp]

/-- Concrete instance of the amended claim C2. -/
theorem c2_remove_then_create_witness :
    (makeLink id "a" (Entry.link "b")).2 = [FsOp.remove, FsOp.symlink (id "a")]
  ∧ statesDuring (Entry.link "b") (makeLink id "a" (Entry.link "b")).2
        = [Entry.link "b", Entry.nofile, Entry.link (id "a")] :=
  c2_remove_then_create id "a" "b" (by decide)

/-- Claim C3 (code bug): when no trusted digest can be extracted from the
manifest (here: two lines naming `f.tar` with differing digests),
`getValidatedArchive` does not return `None`: `getExpectedChecksum` yields
`None`, `verifyChecksum` hands it to `checkSha256`, and `sha256sum.lower()`
raises an uncaught `AttributeError` as soon as the local archive file is
readable — immediately when the cached archive exists, or after the fresh
download succeeds when it does not; when the archive is absent and the
download fails, `log('', False)` exits the process instead. -/
theorem c3_no_trusted_digest_crashes :
    getExpectedChecksum dupLines "f.tar" = none
  ∧ getValidatedArchive (fun _ => "") gpgOkEnv ⟨none, true, [1]⟩
      (some dupLines) "f.tar" (some [0])
      = Except.error (Halt.raised PyExc.attributeError)
  ∧ getValidatedArchive (fun _ => "") gpgOkEnv ⟨none, true, [1]⟩
      (some dupLines) "f.tar" none
      = Except.error (Halt.raised PyExc.attributeError)
  ∧ getValidatedArchive (fun _ => "") gpgOkEnv ⟨none, false, [1]⟩
      (some dupLines) "f.tar" none
      = Except.error Halt.exited :=
  ⟨rfl, rfl, rfl, rfl⟩

/-- Claim C4 is false on the code in its "full overwrite (not resumed)"
part: on a cached-digest mismatch `verifyChecksum` calls
`saveRemoteFile(url, filePath, True)`, i.e. with resume enabled, not as a
fresh non-resumed download. -/
theorem c4_not_fresh_counterexample :
    (verifyChecksum c4hash c4net (some "aa") (some [1])).map (fun r => r.fetches)
      = Except.ok [true]
  ∧ ¬ ((verifyChecksum c4hash c4net (some "aa") (some [1])).map (fun r => r.fetches)
      = Except.ok [false]) := by
  have h1 : (verifyChecksum c4hash c4net (some "aa") (some [1])).map (fun r => r.fetches)
      = Except.ok [true] := rfl
  refine ⟨h1, fun h => ?_⟩
  rw [h1] at h
  simp at h

/-- Claim C4 (amended): whenever the locally cached archive's SHA-256 digest
does not match the expected digest, the archive is re-downloaded exactly
once with resume enabled (`saveRemoteFile` is called with `resume=True`) and
re-validated exactly once, the returned flag being that second check's
outcome — so a second mismatch makes `verifyChecksum` report failure. -/
theorem c4_resumed_single_revalidation (hash : List Nat → String) (net : Net)
    (checksum : Option String) (file f2 : Option (List Nat))
    (reqs : List Req) (b : Bool)
    (h1 : checkSha256 hash file checksum = Except.ok false)
    (h2 : saveRemoteFile net file true = Except.ok (f2, reqs))
    (h3 : checkSha256 hash f2 checksum = Except.ok b) :
    verifyChecksum hash net checksum file = Except.ok ⟨b, f2, [true]⟩ := by
  simp [verifyChecksum, h1, h2, h3]

/-- Concrete instance of the amended claim C4, with a second mismatch: the
cached file `[1]` does not hash to `"cc"`, the resumed download turns it
into `[1, 2]`, which still does not hash to `"cc"`, and `verifyChecksum`
reports `false`. -/
theorem c4_resumed_single_revalidation_witness :
    verifyChecksum c4hash c4net (some "cc") (some [1])
      = Except.ok ⟨false, some [1, 2], [true]⟩ :=
  c4_resumed_single_revalidation c4hash c4net (some "cc") (some [1])
    (some [1, 2]) [Req.rangeFrom 1] false rfl rfl rfl

/-- Claim C5 (code bug): with resume enabled and an existing local file,
equal sizes are a no-op success and a smaller local file is continued by a
byte-range request appending the tail, as claimed; but in the remaining case
(local larger than remote, or `HEAD` failed so the remote size is `-1`) the
full download does NOT overwrite: the file is opened in append mode
(`'ab'` since `resume` is set), so the whole body is appended after the
stale local content. -/
theorem c5_resume_fetch_eval :
    saveRemoteFile ⟨some 2, true, [7, 8]⟩ (some [5, 6]) true
      = Except.ok (some [5, 6], [])
  ∧ saveRemoteFile ⟨some 3, true, [7, 8, 9]⟩ (some [7]) true
      = Except.ok (some [7, 8, 9], [Req.rangeFrom 1])
  ∧ saveRemoteFile ⟨some 1, true, [7]⟩ (some [5, 6]) true
      = Except.ok (some [5, 6, 7], [Req.full])
  ∧ saveRemoteFile ⟨none, true, [7]⟩ (some [5]) true
      = Except.ok (some [5, 7], [Req.full])
  ∧ (some [5, 6, 7] : Option (List Nat)) ≠ some [7] := by
  refine ⟨rfl, rfl, rfl, rfl, fun h => ?_⟩
  simp at h

/-- Claim C8 is false on the code for archive-format errors raised at open
time: a file that is not a valid tar archive makes `tarfile.open` raise
`tarfile.ReadError`, which is not in the `except (OSError,
tarfile.ExtractError)` clause, so `installTar` propagates it instead of
returning `False`. -/
theorem c8_readError_propagates_counterexample :
    installTar (Except.error PyExc.readError) none = Except.error PyExc.readError
  ∧ (Except.error PyExc.readError : Except PyExc Bool) ≠ Except.ok false := by
  refine ⟨rfl, fun h => ?_⟩
  simp at h

/-- Claim C8 (amended): `installTar` returns `False` rather than propagating
on any `OSError` or `tarfile.ExtractError` — whether raised while preparing
the target directory, opening the archive, or extracting a member — leaving
the target directory absent or partially populated; but an exception of any
other class (such as `tarfile.ReadError` from a malformed archive)
propagates out of `installTar`. -/
theorem c8_catches_os_and_extract (openResult : Except PyExc (List TarMember))
    (dirPrepErr : Option PyExc) :
    (∀ e, installTar openResult dirPrepErr = Except.error e →
        e ≠ PyExc.osError ∧ e ≠ PyExc.extractError)
  ∧ (dirPrepErr = some PyExc.osError →
        installTar openResult dirPrepErr = Except.ok false)
  ∧ (dirPrepErr = none → openResult = Except.error PyExc.osError →
        installTar openResult dirPrepErr = Except.ok false)
  ∧ (dirPrepErr = none → openResult = Except.error PyExc.extractError →
        installTar openResult dirPrepErr = Except.ok false)
  ∧ (∀ m ms, dirPrepErr = none → openResult = Except.ok (m :: ms) →
        hasDirPart m.name = true → m.extractErr = some PyExc.extractError →
        installTar openResult dirPrepErr = Except.ok false) := by
  refine ⟨?_, ?_, ?_, ?_, ?_⟩
  · intro e he
    unfold installTar at he
    cases hb : installTarBody openResult dirPrepErr with
    | ok b => rw [hb] at he; cases he
    | error e2 =>
      rw [hb] at he
      dsimp only at he
      by_cases hcaught : e2 = PyExc.osError ∨ e2 = PyExc.extractError
      · rw [if_pos hcaught] at he; cases he
      · rw [if_neg hcaught] at he
        cases he
        push_neg at hcaught
        exact hcaught
  · intro h; simp [installTar, installTarBody, h]
  · intro h1 h2; simp [installTar, installTarBody, h1, h2]
  · intro h1 h2; simp [installTar, installTarBody, h1, h2]
  · intro m ms h1 h2 h3 h4
    simp [installTar, installTarBody, h1, h2, extractAll, h3, h4]

/-- Concrete instance of the amended claim C8: an `ExtractError` while
opening the archive yields `False`. -/
theorem c8_catches_os_and_extract_witness :
    installTar (Except.error PyExc.extractError) none = Except.ok false :=
  (c8_catches_os_and_extract (Except.error PyExc.extractError) none).2.2.2.1 rfl rfl

/-- Claim C7: calling `makeLink` twice in a row with the same source and
destination is a no-op the second time — the second call performs no
filesystem operation and leaves the link exactly as the first call left it,
still pointing at the same target. -/
theorem c7_makeLink_idempotent (normPath : String → String) (src : String)
    (st : Entry) :
    makeLink normPath src (makeLink normPath src st).1
      = ((makeLink normPath src st).1, []) := by
  cases st with
  | nofile => simp [makeLink]
  | other => simp [makeLink]
  | link t => by_cases h : t = normPath src <;> simp [makeLink, h]

lemma pyIndex_append_first (x : String) (pre rest : List String) (hpre : x ∉ pre) :
    pyIndex x (pre ++ x :: rest) = some pre.length := by
  induction pre with
  | nil => simp [pyIndex]
  | cons a as ih =>
    have ha : ¬ (a == x) := by
      simp only [beq_iff_eq]
      rintro rfl
      exact hpre (List.mem_cons_self _ _)
    have ih2 := ih (fun hx => hpre (List.mem_cons_of_mem _ hx))
    simp [pyIndex, ha, ih2]

/-- Claim C6: when a manifest contains the clearsign markers (the first
`BEGIN PGP SIGNED MESSAGE` line and the first `BEGIN PGP SIGNATURE` line),
`getExpectedChecksum` considers exactly the lines strictly between them; and
whenever two considered lines name the target file with differing digests it
returns `None` rather than picking either digest. -/
theorem c6_markers_and_duplicates :
    (∀ pre mid post : List String,
      BEGIN_MARKER ∉ pre → SIG_MARKER ∉ pre → SIG_MARKER ∉ mid →
      consideredLines (pre ++ BEGIN_MARKER :: (mid ++ SIG_MARKER :: post)) = mid)
  ∧ (∀ (lines : List String) (fileName h1 h2 : String),
      h1 ∈ lineHashes lines fileName → h2 ∈ lineHashes lines fileName →
      h1 ≠ h2 → getExpectedChecksum lines fileName = none) := by
  constructor
  · intro pre mid post hB hSpre hSmid
    have hBS : SIG_MARKER ≠ BEGIN_MARKER := by decide
    have h1 : pyIndex BEGIN_MARKER (pre ++ BEGIN_MARKER :: (mid ++ SIG_MARKER :: post))
        = some pre.length := pyIndex_append_first _ _ _ hB
    have e2 : pre ++ BEGIN_MARKER :: (mid ++ SIG_MARKER :: post)
        = (pre ++ BEGIN_MARKER :: mid) ++ SIG_MARKER :: post := by simp
    have hS : SIG_MARKER ∉ pre ++ BEGIN_MARKER :: mid := by
      intro hmem
      rcases List.mem_append.mp hmem with hmem | hmem
      · exact hSpre hmem
      · rcases List.mem_cons.mp hmem with hmem | hmem
        · exact hBS hmem
        · exact hSmid hmem
    have h2 : pyIndex SIG_MARKER (pre ++ BEGIN_MARKER :: (mid ++ SIG_MARKER :: post))
        = some (pre.length + 1 + mid.length) := by
      rw [e2, pyIndex_append_first _ _ _ hS]
      simp only [List.length_append, List.length_cons]
      congr 1
      omega
    unfold consideredLines
    rw [h1, h2]
    dsimp only
    have e3 : pre.length + 1 + mid.length - (pre.length + 1) = mid.length := by omega
    have e4 : pre ++ BEGIN_MARKER :: (mid ++ SIG_MARKER :: post)
        = (pre ++ [BEGIN_MARKER]) ++ (mid ++ SIG_MARKER :: post) := by simp
    have e5 : pre.length + 1 = (pre ++ [BEGIN_MARKER]).length := by simp
    rw [e3, e4, e5, List.drop_left]
    exact List.take_left mid (SIG_MARKER :: post)
  · intro lines fileName h1 h2 m1 m2 hne
    unfold getExpectedChecksum
    cases hl : lineHashes lines fileName with
    | nil => rw [hl] at m1
    | cons h t =>
      rw [hl] at m1 m2
      have hall : ¬ (t.all (fun x => x == h) = true) := by
        intro hall
        have heq : ∀ x ∈ h :: t, x = h := by
          intro x hx
          rcases List.mem_cons.mp hx with rfl | hx
          · rfl
          · exact beq_iff_eq.mp (List.all_eq_true.mp hall x hx)
        exact hne ((heq h1 m1).trans (heq h2 m2).symm)
      simp [hall]

/-- Concrete instance of claim C6: a clearsigned manifest is sliced to the
lines between the markers, and the manifest `dupLines`, whose two lines both
name `f.tar` with different digests, yields no trusted digest. -/
theorem c6_markers_and_duplicates_witness :
    consideredLines
        (["x"] ++ BEGIN_MARKER :: ([hexA ++ "  f.tar"] ++ SIG_MARKER :: ["y"]))
      = [hexA ++ "  f.tar"]
  ∧ getExpectedChecksum dupLines "f.tar" = none :=
  ⟨c6_markers_and_duplicates.1 ["x"] [hexA ++ "  f.tar"] ["y"]
      (by decide) (by decide) (by decide),
   c6_markers_and_duplicates.2 dupLines "f.tar" hexA hexB
      (by decide) (by decide) (by decide)⟩

lemma takeWhile_append_all (p : Char → Bool) (xs ys : List Char)
    (hxs : ∀ x ∈ xs, p x = true) :
    (xs ++ ys).takeWhile p = xs ++ ys.takeWhile p := by
  induction xs with
  | nil => simp
  | cons a as ih =>
    have ha := hxs a (List.mem_cons_self _ _)
    simp [List.takeWhile_cons, ha, ih (fun x hx => hxs x (List.mem_cons_of_mem _ hx))]

lemma dropWhile_append_all (p : Char → Bool) (xs ys : List Char)
    (hxs : ∀ x ∈ xs, p x = true) :
    (xs ++ ys).dropWhile p = ys.dropWhile p := by
  induction xs with
  | nil => simp
  | cons a as ih =>
    have ha := hxs a (List.mem_cons_self _ _)
    simp [List.dropWhile_cons, ha, ih (fun x hx => hxs x (List.mem_cons_of_mem _ hx))]

lemma takeWhile_all (p : Char → Bool) (xs : List Char)
    (hxs : ∀ x ∈ xs, p x = true) :
    xs.takeWhile p = xs := by
  induction xs with
  | nil => rfl
  | cons a as ih =>
    have ha := hxs a (List.mem_cons_self _ _)
    simp [List.takeWhile_cons, ha, ih (fun x hx => hxs x (List.mem_cons_of_mem _ hx))]

lemma lndTagToVersionChars_eq (ver rest2 : List Char)
    (hver : ∀ ch ∈ ver, isVerChar ch = true) (hnl : '\n' ∉ rest2) :
    lndTagToVersionChars ('v' :: (ver ++ '-' :: rest2))
      = some (ver ++ (if ver.count '.' > 1 then ['-'] else ['.', '0', '-']) ++ rest2) := by
  have ht : (ver ++ '-' :: rest2).takeWhile isVerChar = ver := by
    rw [takeWhile_append_all _ _ _ hver, List.takeWhile_cons]
    simp [isVerChar]
  have hd : (ver ++ '-' :: rest2).dropWhile isVerChar = '-' :: rest2 := by
    rw [dropWhile_append_all _ _ _ hver, List.dropWhile_cons]
    simp [isVerChar]
  have hcm : rest2.takeWhile (fun x => x ≠ '\n') = rest2 := by
    refine takeWhile_all _ _ (fun x hx => ?_)
    simp only [ne_eq, decide_eq_true_eq]
    rintro rfl
    exact hnl hx
  simp only [lndTagToVersionChars, ht, hd, hcm]

/-- Claim C9: for every lnd release tag of the form `vMAJOR.MINOR[.PATCH]-COMMIT`
(numeric nonempty segments, commit suffix without a newline),
`lndTagToVersion` returns the 3-segment dotted form — `MAJOR.MINOR.0` when
no patch segment is present, the tag's own segments otherwise — joined to
the commit suffix by `'-'`. -/
theorem c9_lndTagToVersion_normalizes (M m p c : List Char)
    (hM : M ≠ []) (hm : m ≠ []) (hp : p ≠ [])
    (hMd : ∀ ch ∈ M, ch.isDigit = true) (hmd : ∀ ch ∈ m, ch.isDigit = true)
    (hpd : ∀ ch ∈ p, ch.isDigit = true) (hc : '\n' ∉ c) :
    lndTagToVersion (String.mk ('v' :: (M ++ '.' :: (m ++ '-' :: c))))
        = some (String.mk (M ++ '.' :: (m ++ '.' :: '0' :: '-' :: c)))
  ∧ lndTagToVersion (String.mk ('v' :: (M ++ '.' :: (m ++ '.' :: (p ++ '-' :: c)))))
        = some (String.mk (M ++ '.' :: (m ++ '.' :: (p ++ '-' :: c)))) := by
  have hMdot : M.count '.' = 0 :=
    List.count_eq_zero.mpr (fun hmem => absurd (hMd '.' hmem) (by decide))
  have hmdot : m.count '.' = 0 :=
    List.count_eq_zero.mpr (fun hmem => absurd (hmd '.' hmem) (by decide))
  have hpdot : p.count '.' = 0 :=
    List.count_eq_zero.mpr (fun hmem => absurd (hpd '.' hmem) (by decide))
  constructor
  · have hver : ∀ ch ∈ M ++ '.' :: m, isVerChar ch = true := by
      intro ch hch
      rcases List.mem_append.mp hch with h | h
      · simp [isVerChar, hMd ch h]
      · rcases List.mem_cons.mp h with rfl | h
        · decide
        · simp [isVerChar, hmd ch h]
    have e1 : M ++ '.' :: (m ++ '-' :: c) = (M ++ '.' :: m) ++ '-' :: c := by simp
    have hcount : (M ++ '.' :: m).count '.' = 1 := by
      simp [List.count_append, List.count_cons, hMdot, hmdot]
    have h := lndTagToVersionChars_eq (M ++ '.' :: m) c hver hc
    rw [hcount] at h
    simp only [lndTagToVersion, e1]
    rw [h]
    simp
  · have hver : ∀ ch ∈ M ++ '.' :: (m ++ '.' :: p), isVerChar ch = true := by
      intro ch hch
      rcases List.mem_append.mp hch with h | h
      · simp [isVerChar, hMd ch h]
      · rcases List.mem_cons.mp h with rfl | h
        · decide
        · rcases List.mem_append.mp h with h | h
          · simp [isVerChar, hmd ch h]
          · rcases List.mem_cons.mp h with rfl | h
            · decide
            · simp [isVerChar, hpd ch h]
    have e1 : M ++ '.' :: (m ++ '.' :: (p ++ '-' :: c))
        = (M ++ '.' :: (m ++ '.' :: p)) ++ '-' :: c := by simp
    have hcount : (M ++ '.' :: (m ++ '.' :: p)).count '.' = 2 := by
      simp [List.count_append, List.count_cons, hMdot, hmdot, hpdot]
    have h := lndTagToVersionChars_eq (M ++ '.' :: (m ++ '.' :: p)) c hver hc
    rw [hcount] at h
    simp only [lndTagToVersion, e1]
    rw [h]
    simp

/-- Concrete instance of claim C9: `v0.10-beta` normalizes to `0.10.0-beta`
and `v0.10.1-beta` to `0.10.1-beta`. -/
theorem c9_lndTagToVersion_normalizes_witness :
    lndTagToVersion (String.mk ('v' :: (['0'] ++ '.' ::
        (['1', '0'] ++ '-' :: ['b', 'e', 't', 'a']))))
      = some (String.mk (['0'] ++ '.' :: (['1', '0'] ++ '.' :: '0' :: '-' ::
        ['b', 'e', 't', 'a'])))
  ∧ lndTagToVersion (String.mk ('v' :: (['0'] ++ '.' ::
        (['1', '0'] ++ '.' :: (['1'] ++ '-' :: ['b', 'e', 't', 'a'])))))
      = some (String.mk (['0'] ++ '.' :: (['1', '0'] ++ '.' ::
        (['1'] ++ '-' :: ['b', 'e', 't', 'a'])))) :=
  c9_lndTagToVersion_normalizes ['0'] ['1', '0'] ['1'] ['b', 'e', 't', 'a']
    (by decide) (by decide) (by decide) (by decide) (by decide) (by decide) (by decide)

lemma hex_toLower (c : Char) (v : Nat) (h : hexDigitVal? c = some v) :
    Char.toLower c = hexLowerChar v := by
  unfold hexDigitVal? at h
  split at h <;> simp_all <;> subst h <;> decide

lemma hex_lt (c : Char) (v : Nat) (h : hexDigitVal? c = some v) : v < 16 := by
  unfold hexDigitVal? at h
  split at h <;> simp_all <;> omega

lemma hexDigits?_length (cs : List Char) (ds : List Nat)
    (h : hexDigits? cs = some ds) : ds.length = cs.length := by
  induction cs generalizing ds with
  | nil => cases h; rfl
  | cons c cs ih =>
    unfold hexDigits? at h
    cases hv : hexDigitVal? c with
    | none => rw [hv] at h; cases h
    | some d =>
      rw [hv] at h
      cases hds : hexDigits? cs with
      | none => rw [hds] at h; cases h
      | some ds2 =>
        rw [hds] at h
        cases h
        simp [ih ds2 hds]

lemma hexDigits?_lt (cs : List Char) (ds : List Nat)
    (h : hexDigits? cs = some ds) : ∀ d ∈ ds, d < 16 := by
  induction cs generalizing ds with
  | nil => cases h; intro d hd; cases hd
  | cons c cs ih =>
    unfold hexDigits? at h
    cases hv : hexDigitVal? c with
    | none => rw [hv] at h; cases h
    | some d =>
      rw [hv] at h
      cases hds : hexDigits? cs with
      | none => rw [hds] at h; cases h
      | some ds2 =>
        rw [hds] at h
        cases h
        intro x hx
        rcases List.mem_cons.mp hx with rfl | hx
        · exact hex_lt c x hv
        · exact ih ds2 hds x hx

lemma hexNum_lt (ds : List Nat) (h : ∀ d ∈ ds, d < 16) :
    hexNum ds < 16 ^ ds.length := by
  induction ds with
  | nil => simp [hexNum]
  | cons d ds ih =>
    have hd : d < 16 := h d (List.mem_cons_self _ _)
    have ih2 := ih (fun x hx => h x (List.mem_cons_of_mem _ hx))
    have hstep : d * 16 ^ ds.length + hexNum ds < (d + 1) * 16 ^ ds.length := by
      rw [Nat.add_mul, Nat.one_mul]
      omega
    calc hexNum (d :: ds) = d * 16 ^ ds.length + hexNum ds := rfl
      _ < (d + 1) * 16 ^ ds.length := hstep
      _ ≤ 16 * 16 ^ ds.length := Nat.mul_le_mul_right _ (by omega)
      _ = 16 ^ (d :: ds).length := by rw [List.length_cons]; ring

lemma hexNum_inj (ds es : List Nat) (hlen : ds.length = es.length)
    (hds : ∀ d ∈ ds, d < 16) (hes : ∀ e ∈ es, e < 16)
    (h : hexNum ds = hexNum es) : ds = es := by
  induction ds generalizing es with
  | nil =>
    cases es with
    | nil => rfl
    | cons e es => cases hlen
  | cons d ds ih =>
    cases es with
    | nil => cases hlen
    | cons e es =>
      have hn : ds.length = es.length := by simpa using hlen
      have hr : hexNum ds < 16 ^ ds.length :=
        hexNum_lt ds (fun x hx => hds x (List.mem_cons_of_mem _ hx))
      have hr2 : hexNum es < 16 ^ ds.length := by
        rw [hn]
        exact hexNum_lt es (fun x hx => hes x (List.mem_cons_of_mem _ hx))
      have hh : d * 16 ^ ds.length + hexNum ds = e * 16 ^ ds.length + hexNum es := by
        have h2 := h
        simp only [hexNum] at h2
        rw [hn] at h2 ⊢
        exact h2
      have hK : 0 < 16 ^ ds.length := Nat.pos_pow_of_pos _ (by omega)
      have hde : d = e := by
        have h1 : (d * 16 ^ ds.length + hexNum ds) / 16 ^ ds.length = d := by
          rw [Nat.mul_comm d, Nat.mul_add_div hK, Nat.div_eq_of_lt hr]
          omega
        have h2 : (e * 16 ^ ds.length + hexNum es) / 16 ^ ds.length = e := by
          rw [Nat.mul_comm e, Nat.mul_add_div hK, Nat.div_eq_of_lt hr2]
          omega
        rw [← h1, ← h2, hh]
      subst hde
      have htail : hexNum ds = hexNum es := by omega
      rw [ih es hn (fun x hx => hds x (List.mem_cons_of_mem _ hx))
        (fun x hx => hes x (List.mem_cons_of_mem _ hx)) htail]

lemma hexDigits?_map_toLower (as bs : List Char) (ds : List Nat)
    (ha : hexDigits? as = some ds) (hb : hexDigits? bs = some ds) :
    as.map Char.toLower = bs.map Char.toLower := by
  induction as generalizing bs ds with
  | nil =>
    cases ha
    cases bs with
    | nil => rfl
    | cons b bs =>
      unfold hexDigits? at hb
      cases hv : hexDigitVal? b <;> rw [hv] at hb <;>
        [skip; cases hds : hexDigits? bs] <;> simp_all
  | cons a as ih =>
    unfold hexDigits? at ha
    cases hva : hexDigitVal? a with
    | none => rw [hva] at ha; cases ha
    | some d =>
      rw [hva] at ha
      cases hdsa : hexDigits? as with
      | none => rw [hdsa] at ha; cases ha
      | some dsa =>
        rw [hdsa] at ha
        cases ha
        cases bs with
        | nil => cases hb
        | cons b bs =>
          unfold hexDigits? at hb
          cases hvb : hexDigitVal? b with
          | none => rw [hvb] at hb; cases hb
          | some e =>
            rw [hvb] at hb
            cases hdsb : hexDigits? bs with
            | none => rw [hdsb] at hb; cases hb
            | some dsb =>
              rw [hdsb] at hb
              cases hb
              simp only [List.map_cons]
              rw [hex_toLower a d hva, hex_toLower b d hvb, ih bs dsa hdsa hdsb]

/-- The 64-character uppercase counterpart of `hexA`. -/
def hexAU : String := "AAAAAAAAAAAAAAAAAAAAAAAAAAAAAAAAAAAAAAAAAAAAAAAAAAAAAAAAAAAAAAAA"

/-- The numeric value of the digest `hexA`. -/
def c10n : Nat := (hexVal? hexA).getD 0

/-- Claim C10: whenever a file's computed SHA-256 hex digest and the expected
64-hex-character digest are equal as hexadecimal numbers, `checkSha256`
returns `True` regardless of the letter case of either side — it lowercases
both digests before comparing — while `getExpectedChecksum` matches manifest
filenames case-sensitively (here `File.tar` matches but `file.tar` does
not). -/
theorem c10_checkSha256_case_insensitive :
    (∀ (hash : List Nat → String) (data : List Nat) (expected : String) (n : Nat),
      (hash data).data.length = 64 → expected.data.length = 64 →
      hexVal? (hash data) = some n → hexVal? expected = some n →
      checkSha256 hash (some data) (some expected) = Except.ok true)
  ∧ getExpectedChecksum [hexA ++ "  File.tar"] "File.tar" = some hexA
  ∧ getExpectedChecksum [hexA ++ "  File.tar"] "file.tar" = none := by
  refine ⟨?_, rfl, rfl⟩
  intro hash data expected n h64a h64b hva hvb
  unfold hexVal? at hva hvb
  rcases Option.map_eq_some'.mp hva with ⟨ds, hds, hnds⟩
  rcases Option.map_eq_some'.mp hvb with ⟨es, hes, hnes⟩
  have hlen : ds.length = es.length := by
    rw [hexDigits?_length _ _ hds, hexDigits?_length _ _ hes, h64a, h64b]
  have hdeq : ds = es :=
    hexNum_inj ds es hlen (hexDigits?_lt _ _ hds) (hexDigits?_lt _ _ hes)
      (hnds.trans hnes.symm)
  subst hdeq
  have hmap : (hash data).data.map Char.toLower = expected.data.map Char.toLower :=
    hexDigits?_map_toLower _ _ ds hds hes
  have hlow : pyLower (hash data) = pyLower expected := by
    unfold pyLower
    rw [hmap]
  unfold checkSha256
  dsimp only
  rw [hlow]
  simp

/-- Concrete instance of claim C10: the all-lowercase digest `hexA` and the
all-uppercase digest `hexAU` denote the same hexadecimal number, and
`checkSha256` accepts the pair. -/
theorem c10_checkSha256_case_insensitive_witness :
    checkSha256 (fun _ => hexA) (some []) (some hexAU) = Except.ok true :=
  c10_checkSha256_case_insensitive.1 (fun _ => hexA) [] hexAU c10n
    (by decide) (by decide) (by decide) (by decide)

end UpdateBtc
